import Mathlib

/-
Verification of the notice-diffing and delivery pipeline of the
aiub_notice_bot repository (src/aiub_notice_bot.py and src/api/webhook.py),
as a shallow embedding in Lean 4.

Modelling conventions:
  * Python strings are Lean `String`s; character-level operations work on
    `String.data : List Char`.
  * Python sets of titles are `Finset String`.  Iterating a Python set has
    an unspecified order, so code that converts a set to a list is
    parametrised by an enumeration function `enum : Finset String → List
    String` constrained by `validEnum` (no duplicates, exactly the
    elements of the set).
  * The state file is a `List Char` (its byte content, decoded); writing
    is modelled as producing that content, reading as parsing it.
  * HTTP requests and Telegram sends are modelled by outcome oracles:
    `outcome : Nat → Except String R` gives the result of each attempt of
    `_request_with_retry`, and `sendOk : String → Bool` gives the result
    of `send_telegram_msg` on a message.  `time.sleep` is modelled by
    recording the slept durations.
-/

set_option maxRecDepth 40000

namespace AiubBot

/-- MAX_SAVED_NOTICES from src/aiub_notice_bot.py line 16. -/
def MAX_SAVED_NOTICES : Nat := 200

/-- MAX_RETRIES from src/aiub_notice_bot.py line 14. -/
def MAX_RETRIES : Nat := 3

/-- RETRY_DELAY from src/aiub_notice_bot.py line 15. -/
def RETRY_DELAY : Nat := 5

/-- Whitespace as recognised by Python `str.strip()` and `str.split()`:
the full set CPython's `Py_UNICODE_ISSPACE` accepts — the ASCII
whitespace characters, the information separators 1C-1F, NEL (U+0085),
NBSP (U+00A0), OGHAM SPACE MARK (U+1680), the Unicode space separators
U+2000-U+200A, LINE SEPARATOR, PARAGRAPH SEPARATOR, NARROW NBSP, MMSP
and IDEOGRAPHIC SPACE. -/
def isWS (c : Char) : Bool :=
  c.toNat = 0x09 || c.toNat = 0x0a || c.toNat = 0x0b || c.toNat = 0x0c ||
  c.toNat = 0x0d || (0x1c ≤ c.toNat && c.toNat ≤ 0x1f) || c.toNat = 0x20 ||
  c.toNat = 0x85 || c.toNat = 0xa0 || c.toNat = 0x1680 ||
  (0x2000 ≤ c.toNat && c.toNat ≤ 0x200a) || c.toNat = 0x2028 ||
  c.toNat = 0x2029 || c.toNat = 0x202f || c.toNat = 0x205f ||
  c.toNat = 0x3000

/-- Python `str.strip()` on the character list of a string. -/
def stripChars (l : List Char) : List Char :=
  ((l.dropWhile isWS).reverse.dropWhile isWS).reverse

/-- Python `str.strip()` on a string. -/
def pyStripS (s : String) : String :=
  ⟨stripChars s.data⟩

/-- The reserved character set of `escape_markdown_v2`
(src/aiub_notice_bot.py line 34 and src/api/webhook.py line 14):
the characters of the Python raw string, in order; the trailing
escaped backslash of the raw string denotes two backslash characters. -/
def escSpecial : List Char :=
  ['_', '*', '[', ']', '(', ')', '~', '\x60', '>', '#', '+', '-', '=', '|',
   '\x7b', '\x7d', '.', '!', '\\', '\\']

/-- Character-level body of `escape_markdown_v2`: each reserved character
is replaced by a backslash followed by the character. -/
def escapeChars (l : List Char) : List Char :=
  l.flatMap (fun c => if c ∈ escSpecial then ['\\', c] else [c])

/-- escape_markdown_v2 from src/aiub_notice_bot.py lines 32-35
(identical copy in src/api/webhook.py lines 12-15). -/
def escape_markdown_v2 (s : String) : String :=
  ⟨escapeChars s.data⟩

/-- Inverse direction used to state the escaping property: drop one
backslash before each escaped character. -/
def unescapeChars : List Char → List Char
  | [] => []
  | [c] => [c]
  | c :: d :: rest =>
    if c = '\\' then d :: unescapeChars rest else c :: unescapeChars (d :: rest)

/-- A character list is properly MarkdownV2-escaped: reading left to
right, every reserved character is consumed together with exactly one
escaping backslash immediately before it, and every other character
stands alone. -/
inductive EscapedMd : List Char → Prop
  | nil : EscapedMd []
  | plain (c : Char) (rest : List Char) :
      c ∉ escSpecial → EscapedMd rest → EscapedMd (c :: rest)
  | esc (c : Char) (rest : List Char) :
      c ∈ escSpecial → EscapedMd rest → EscapedMd ('\\' :: c :: rest)

/-- save_notices from src/aiub_notice_bot.py lines 123-132: the list of
lines written to the state file, namely `list(titles)[-MAX_SAVED_NOTICES:]`
(the last MAX_SAVED_NOTICES elements). -/
def save_notices_lines (titles : List String) : List String :=
  titles.drop (titles.length - MAX_SAVED_NOTICES)

/-- The byte content of the state file written by save_notices: each
capped title followed by a newline. -/
def saveContent (titles : List String) : List Char :=
  ((save_notices_lines titles).map (fun t => t.data ++ ['\n'])).flatten

/-- Helper for `splitNl`: prepend a character to the first piece. -/
def consHead (c : Char) : List (List Char) → List (List Char)
  | [] => [[c]]
  | h :: t => (c :: h) :: t

/-- Split a character list at newline characters (the pieces a Python
text-mode line iteration yields, with the terminators removed). -/
def splitNl : List Char → List (List Char)
  | [] => [[]]
  | c :: rest =>
    if c = '\n' then [] :: splitNl rest else consHead c (splitNl rest)

/-- Universal-newline translation performed by Python's text-mode
`open(..., "r")` on read: each CRLF pair and each lone CR becomes a
single LF in the decoded stream. -/
def univNl : List Char → List Char
  | [] => []
  | [c] => if c = '\r' then ['\n'] else [c]
  | c :: d :: rest =>
    if c = '\r' then
      if d = '\n' then '\n' :: univNl rest
      else '\n' :: univNl (d :: rest)
    else c :: univNl (d :: rest)

/-- load_saved_notices from src/aiub_notice_bot.py lines 111-121 applied
to an existing file with the given content: the file is read in text
mode (universal newlines), split into lines, and the set of stripped,
non-empty lines is returned. -/
def load_saved_notices (content : List Char) : Finset String :=
  ((((splitNl (univNl content)).map stripChars).filter
      (fun l => !l.isEmpty)).map String.mk).toFinset

/-- The title precondition under which the state file round-trips: the
title is non-empty, contains no line break (neither LF nor CR — text
mode treats both as newlines on read), and is unchanged by `str.strip()`
(no leading or trailing whitespace). -/
def goodTitle (t : String) : Prop :=
  t ≠ "" ∧ '\n' ∉ t.data ∧ '\r' ∉ t.data ∧ stripChars t.data = t.data

/-- The list comprehension of src/aiub_notice_bot.py line 159: candidate
notices whose title is not in the saved set, in page order. -/
def new_notices (notices : List (String × String)) (saved : Finset String) :
    List (String × String) :=
  notices.filter (fun p => decide (p.1 ∉ saved))

/-- The message built in main (src/aiub_notice_bot.py lines 171-175). -/
def formatMsg (title link : String) : String :=
  "🚨 *New AIUB Notice\\!*\n\n_" ++ escape_markdown_v2 title ++
    "_\n\n[Click to Read](" ++ escape_markdown_v2 link ++ ")"

/-- Observable outcome of one poll-workflow run: the notices for which a
send was attempted, in send order, and the persisted seen-set after the
run. -/
structure PollResult where
  sent : List (String × String)
  state : Finset String
  deriving DecidableEq

/-- A valid enumeration of a Python set: some duplicate-free listing of
exactly its elements (the iteration order of a Python set is
unspecified). -/
def validEnum (enum : Finset String → List String) : Prop :=
  ∀ s : Finset String, (enum s).Nodup ∧ ∀ x, x ∈ enum s ↔ x ∈ s

/-- main from src/aiub_notice_bot.py lines 136-187, after the pre-flight
checks and the fetch, as a function of the loaded seen-set, the extracted
notices, and the per-message send outcome.  All new notices are attempted
(oldest first, i.e. in reverse page order); the state file is rewritten
with `set(current_titles) | saved_titles` only when every send succeeded,
and `enum` supplies the unspecified iteration order of that set. -/
def runPoll (enum : Finset String → List String) (saved : Finset String)
    (notices : List (String × String)) (sendOk : String → Bool) : PollResult :=
  if notices = [] then ⟨[], saved⟩
  else
    let new := new_notices notices saved
    if new = [] then ⟨[], saved⟩
    else
      let attempts := new.reverse
      let all_sent := attempts.all (fun p => sendOk (formatMsg p.1 p.2))
      ⟨attempts,
        if all_sent then
          (save_notices_lines
            (enum ((notices.map Prod.fst).toFinset ∪ saved))).toFinset
        else saved⟩

/-- Observable outcome of `_request_with_retry`: the value returned (ok)
or the exception finally raised (error), the number of attempts made, and
the list of sleep durations, in order. -/
structure RetryResult (R : Type) where
  result : Except String R
  attempts : Nat
  sleeps : List Nat

/-- The loop of `_request_with_retry` (src/aiub_notice_bot.py lines
42-60).  `attempt` is the 1-based number of the current attempt, `fuel`
the number of attempts still allowed; `outcome i` is what the i-th
request attempt does (`.ok` a response that passed `raise_for_status`,
`.error` a raised `requests.RequestException`, carrying its rendering).
On a transient failure with attempts remaining the loop sleeps
RETRY_DELAY seconds and retries; after the last failed attempt the last
exception is re-raised. -/
def retryLoop {R : Type} (outcome : Nat → Except String R) :
    Nat → Nat → RetryResult R
  | _, 0 => ⟨Except.error "", 0, []⟩
  | attempt, 1 =>
    match outcome attempt with
    | Except.ok r => ⟨Except.ok r, 1, []⟩
    | Except.error e => ⟨Except.error e, 1, []⟩
  | attempt, fuel + 2 =>
    match outcome attempt with
    | Except.ok r => ⟨Except.ok r, 1, []⟩
    | Except.error _ =>
      let rest := retryLoop outcome (attempt + 1) (fuel + 1)
      ⟨rest.result, rest.attempts + 1, RETRY_DELAY :: rest.sleeps⟩

/-- _request_with_retry from src/aiub_notice_bot.py lines 38-60: up to
`retries` attempts starting at attempt 1. -/
def request_with_retry {R : Type} (retries : Nat)
    (outcome : Nat → Except String R) : RetryResult R :=
  retryLoop outcome 1 retries

/- The command workflow of src/api/webhook.py.  A notice record there is
a (title, link, date) triple; the network is abstracted by the outcome of
`get_notices` (`.ok` the fetched list, `.error` the exception text);
each handler returns the list of reply texts it sends. -/

/-- A (title, link, date) triple as returned by get_notices
(src/api/webhook.py lines 18-55). -/
abbrev Notice3 := String × String × String

/-- Python `str.lower()` (the ASCII case mapping, which is what
`Char.toLower` provides). -/
def pyLower (s : String) : String :=
  ⟨s.data.map Char.toLower⟩

/-- Python substring membership `needle in hay` on character lists. -/
def containsSub (needle hay : List Char) : Bool :=
  hay.tails.any (fun t => needle.isPrefixOf t)

/-- The match predicate of handle_search_command line 143:
`query.lower() in title.lower()`. -/
def titleMatches (query : String) (n : Notice3) : Bool :=
  containsSub (pyLower query).data (pyLower n.1).data

/-- The filtered match list of handle_search_command line 143, in fetch
order. -/
def searchMatches (query : String) (notices : List Notice3) : List Notice3 :=
  notices.filter (fun n => titleMatches query n)

/-- One numbered digest entry (src/api/webhook.py lines 79-83 and
150-154): number, escaped title as link text, escaped link, optional
escaped date in parentheses. -/
def entryLine (i : Nat) (n : Notice3) : String :=
  toString i ++ "\\. [" ++ escape_markdown_v2 n.1 ++ "](" ++
    escape_markdown_v2 n.2.1 ++ ")" ++
    (if n.2.2 = "" then "" else " \\(" ++ escape_markdown_v2 n.2.2 ++ "\\)") ++
    "\n"

/-- Header line of a search reply (src/api/webhook.py line 149). -/
def searchHeaderLine (query : String) : String :=
  "🔍 *Search results for \"" ++ escape_markdown_v2 query ++ "\"*\n"

/-- Overflow indicator of a search reply (src/api/webhook.py line 157). -/
def overflowLine (k : Nat) : String :=
  "\n_\\+" ++ toString k ++ " more results_"

/-- Usage message for /search without a keyword (line 137). -/
def searchUsageMsg : String :=
  "Usage: /search \\<keyword\\>\nExample: /search exam"

/-- No-result reply of /search (line 146). -/
def noResultsMsg (query : String) : String :=
  "No notices found matching \"" ++ escape_markdown_v2 query ++ "\""

/-- The lines of a non-empty search reply (src/api/webhook.py lines
149-157): header, one numbered entry per element of `matches[:5]`, and an
overflow line when there are more than 5 matches. -/
def searchLines (query : String) (notices : List Notice3) : List String :=
  searchHeaderLine query ::
    ((searchMatches query notices).take 5).enum.map
      (fun p => entryLine (p.1 + 1) p.2) ++
    (if 5 < (searchMatches query notices).length then
      [overflowLine ((searchMatches query notices).length - 5)]
    else [])

/-- handle_search_command from src/api/webhook.py lines 134-161, as a
function of the `get_notices(limit=20)` outcome; the result is the list
of replies sent. -/
def handle_search_command (fetch : Except String (List Notice3))
    (query : String) : List String :=
  if query = "" then [searchUsageMsg]
  else
    match fetch with
    | Except.error e => ["Error: " ++ escape_markdown_v2 e]
    | Except.ok notices =>
      if searchMatches query notices = [] then [noResultsMsg query]
      else [String.intercalate "\n" (searchLines query notices)]

/-- handle_notice_command from src/api/webhook.py lines 70-87, as a
function of the `get_notices(limit=5)` outcome. -/
def handle_notice_command (fetch : Except String (List Notice3)) :
    List String :=
  match fetch with
  | Except.error e => ["Error fetching notices: " ++ escape_markdown_v2 e]
  | Except.ok notices =>
    if notices = [] then ["No notices found\\."]
    else
      [String.intercalate "\n"
        ("📋 *Latest AIUB Notices*\n" ::
          notices.enum.map (fun p => entryLine (p.1 + 1) p.2))]

/-- handle_latest_command from src/api/webhook.py lines 90-105, as a
function of the `get_notices(limit=1)` outcome. -/
def handle_latest_command (fetch : Except String (List Notice3)) :
    List String :=
  match fetch with
  | Except.error e => ["Error: " ++ escape_markdown_v2 e]
  | Except.ok [] => ["No notices found\\."]
  | Except.ok (n :: _) =>
    ["🔔 *Latest Notice*\n\n" ++
      (if n.2.2 = "" then "" else "📅 " ++ escape_markdown_v2 n.2.2 ++ "\n\n") ++
      "_" ++ escape_markdown_v2 n.1 ++ "_\n\n[Click to Read](" ++
      escape_markdown_v2 n.2.1 ++ ")"]

/-- Static reply of handle_start_command (src/api/webhook.py lines
108-119). -/
def startMsg : String :=
  "👋 *Welcome to AIUB Notice Bot\\!*\n\n" ++
  "Available commands:\n" ++
  "/notice \\- Show latest 5 notices\n" ++
  "/latest \\- Show the most recent notice\n" ++
  "/search \\<keyword\\> \\- Search notices\n" ++
  "/devInfo \\- Show developer info\n" ++
  "/help \\- Show this message"

/-- handle_start_command (src/api/webhook.py lines 108-119). -/
def handle_start_command : List String := [startMsg]

/-- Static reply of handle_dev_info_command (src/api/webhook.py lines
122-131); the Python literals \- denote a backslash and a dash. -/
def devMsg : String :=
  "👨‍💻 *Developer Information*\n\n" ++
  "*Name:* Syed Shafkat Raiyan\n\n" ++
  "🔗 *Connect with me:*\n" ++
  "[GitHub](https://github.com/shafkat\\-raiyan)\n" ++
  "[LinkedIn](https://www.linkedin.com/in/shafkat\\-raiyan)"

/-- handle_dev_info_command (src/api/webhook.py lines 122-131). -/
def handle_dev_info_command : List String := [devMsg]

/-- The query extraction of the /search route (src/api/webhook.py line
186): `text.split(maxsplit=1)[1]`, i.e. everything after the first
whitespace run (the text has already been stripped). -/
def pySplitRest (l : List Char) : List Char :=
  (l.dropWhile (fun c => !isWS c)).dropWhile isWS

/-- The routing condition of process_update (src/api/webhook.py lines
177-185): the stripped text matches some command branch. -/
def routedCmd (text : String) : Bool :=
  (text == "/notice") || text.startsWith "/notice@" ||
  (text == "/latest") || text.startsWith "/latest@" ||
  (text == "/start") || (text == "/help") ||
  text.startsWith "/start@" || text.startsWith "/help@" ||
  (text == "/devInfo") || text.startsWith "/devInfo@" ||
  text.startsWith "/search"

/-- process_update from src/api/webhook.py lines 164-187.  `msg` is the
`message` field of the update body (`none` when absent), carrying the
optional numeric chat id and the text (default empty).  `f5`, `f1` and
`f20` are the outcomes of `get_notices` with limit 5, 1 and 20 for the
handler that runs.  The result is the list of replies sent. -/
def process_update (msg : Option (Option Int × String))
    (f5 f1 f20 : Except String (List Notice3)) : List String :=
  match msg with
  | none => []
  | some (cid?, rawText) =>
    match cid? with
    | none => []
    | some cid =>
      if cid = 0 then []
      else
        let text := pyStripS rawText
        if text = "" then []
        else if text = "/notice" then handle_notice_command f5
        else if text.startsWith "/notice@" then handle_notice_command f5
        else if text = "/latest" then handle_latest_command f1
        else if text.startsWith "/latest@" then handle_latest_command f1
        else if text = "/start" then handle_start_command
        else if text = "/help" then handle_start_command
        else if text.startsWith "/start@" then handle_start_command
        else if text.startsWith "/help@" then handle_start_command
        else if text = "/devInfo" then handle_dev_info_command
        else if text.startsWith "/devInfo@" then handle_dev_info_command
        else if text.startsWith "/search" then
          handle_search_command f20
            (if ' ' ∈ text.data then String.mk (pySplitRest text.data) else "")
        else []

/- Theorems. -/

theorem escapeChars_cons (c : Char) (cs : List Char) :
    escapeChars (c :: cs) =
      (if c ∈ escSpecial then ['\\', c] else [c]) ++ escapeChars cs := by
  simp [escapeChars]

theorem escapeChars_escaped (l : List Char) : EscapedMd (escapeChars l) := by
  induction l with
  | nil => exact EscapedMd.nil
  | cons c cs ih =>
    rw [escapeChars_cons]
    by_cases h : c ∈ escSpecial
    · simpa [h] using EscapedMd.esc c _ h ih
    · simpa [h] using EscapedMd.plain c _ h ih

theorem escapeChars_id_of_clean (l : List Char) (h : ∀ c ∈ l, c ∉ escSpecial) :
    escapeChars l = l := by
  induction l with
  | nil => rfl
  | cons c cs ih =>
    have hc := h c (by simp)
    rw [escapeChars_cons, if_neg hc, ih (fun d hd => h d (by simp [hd]))]
    rfl

theorem unescapeChars_cons_of_ne (c : Char) (l : List Char) (h : ¬c = '\\') :
    unescapeChars (c :: l) = c :: unescapeChars l := by
  cases l with
  | nil => rfl
  | cons d rest => simp [unescapeChars, h]

theorem unescape_escape (l : List Char) : unescapeChars (escapeChars l) = l := by
  induction l with
  | nil => rfl
  | cons c cs ih =>
    rw [escapeChars_cons]
    by_cases h : c ∈ escSpecial
    · rw [if_pos h]
      show unescapeChars ('\\' :: c :: escapeChars cs) = c :: cs
      simp [unescapeChars, ih]
    · have hc : ¬c = '\\' := by
        intro hc; exact h (hc ▸ (by decide : ('\\' : Char) ∈ escSpecial))
      rw [if_neg h, List.singleton_append, unescapeChars_cons_of_ne c _ hc, ih]

/-- C4: escape_markdown_v2 is total, produces output in which every
reserved character (including the backslash) is consumed together with
exactly one inserted escaping backslash, leaves strings free of reserved
characters unchanged, and inserts nothing else (dropping one backslash
before each escaped character recovers the input). -/
theorem escape_correct (s : String) :
    EscapedMd (escape_markdown_v2 s).data
    ∧ ((∀ c ∈ s.data, c ∉ escSpecial) → escape_markdown_v2 s = s)
    ∧ unescapeChars (escape_markdown_v2 s).data = s.data := by
  refine ⟨escapeChars_escaped s.data, fun h => ?_, unescape_escape s.data⟩
  show String.mk (escapeChars s.data) = s
  rw [escapeChars_id_of_clean s.data h]

/-- Witness for C4 at concrete inputs. -/
theorem escape_correct_witness :
    escape_markdown_v2 "hello" = "hello"
    ∧ unescapeChars (escape_markdown_v2 "a.b").data = "a.b".data :=
  ⟨(escape_correct "hello").2.1 (by decide), (escape_correct "a.b").2.2⟩

/-- C2: the new-notice filter of main returns a sublist of the candidate
batch (hence preserves its order), its members are exactly the candidates
whose title is not in the seen-set, and candidates with unseen titles
keep their multiplicity; the function is pure (it is a function of its
arguments alone). -/
theorem differ_correct (notices : List (String × String)) (saved : Finset String) :
    (new_notices notices saved).Sublist notices
    ∧ (∀ p, p ∈ new_notices notices saved ↔ p ∈ notices ∧ p.1 ∉ saved)
    ∧ (∀ p : String × String, p.1 ∉ saved →
        (new_notices notices saved).count p = notices.count p) := by
  refine ⟨List.filter_sublist _, fun p => ?_, fun p hp => ?_⟩
  · simp [new_notices, List.mem_filter]
  · simp [new_notices, List.count_filter, hp]

/-- Witness for C2 at a concrete batch and seen-set. -/
theorem differ_correct_witness :
    ("A", "l") ∈ new_notices [("A", "l"), ("B", "l")] {"B"}
    ∧ (new_notices [("A", "l"), ("B", "l")] {"B"}).count ("A", "l") =
      [("A", "l"), ("B", "l")].count ("A", "l") :=
  ⟨((differ_correct _ _).2.1 _).mpr ⟨by decide, by decide⟩,
   (differ_correct _ _).2.2 _ (by decide)⟩

/-- A concrete insertion-ordered collection of 250 distinct titles. -/
def demo250 : List String :=
  (List.range 250).map (fun i => String.mk (List.replicate i 'a'))

theorem demo250_nodup : demo250.Nodup := by
  refine List.Nodup.map ?_ (List.nodup_range 250)
  intro a b h
  have h2 := congrArg (fun s : String => s.data.length) h
  simpa using h2

/-- C5: save_notices persists a suffix of the insertion-ordered input
(the most recent titles, newest retained), of length `min n
MAX_SAVED_NOTICES`, one per line; when the input listing is
duplicate-free (as it always is in the program, which passes a set) the
persisted lines are duplicate-free. -/
theorem save_cap_invariant (titles : List String) :
    save_notices_lines titles <:+ titles
    ∧ (save_notices_lines titles).length = min titles.length MAX_SAVED_NOTICES
    ∧ (titles.Nodup → (save_notices_lines titles).Nodup) := by
  refine ⟨List.drop_suffix _ _, ?_, fun h => (List.drop_sublist _ _).nodup h⟩
  simp only [save_notices_lines, List.length_drop]
  omega

/-- Witness for C5: saving 250 distinct titles persists exactly 200
duplicate-free entries. -/
theorem save_cap_invariant_witness :
    (save_notices_lines demo250).length = 200
    ∧ (save_notices_lines demo250).Nodup := by
  have h := save_cap_invariant demo250
  refine ⟨?_, h.2.2 demo250_nodup⟩
  have hl : demo250.length = 250 := by simp [demo250]
  rw [h.2.1, hl]; decide

theorem runPoll_sent (enum : Finset String → List String) (saved : Finset String)
    (notices : List (String × String)) (sendOk : String → Bool) :
    (runPoll enum saved notices sendOk).sent = (new_notices notices saved).reverse := by
  by_cases h : notices = []
  · subst h; simp [runPoll, new_notices]
  · by_cases h2 : new_notices notices saved = []
    · simp [runPoll, h, h2]
    · simp [runPoll, h, h2]

theorem runPoll_state_cases (enum : Finset String → List String)
    (saved : Finset String) (notices : List (String × String)) (sendOk : String → Bool) :
    (runPoll enum saved notices sendOk).state = saved ∨
    (runPoll enum saved notices sendOk).state =
      (save_notices_lines (enum ((notices.map Prod.fst).toFinset ∪ saved))).toFinset := by
  by_cases h : notices = []
  · left; simp [runPoll, h]
  · by_cases h2 : new_notices notices saved = []
    · left; simp [runPoll, h, h2]
    · by_cases h3 : ((new_notices notices saved).reverse).all
          (fun p => sendOk (formatMsg p.1 p.2)) = true
      · right; simp [runPoll, h, h2, h3]
      · left; simp [runPoll, h, h2, h3]

theorem runPoll_state_fail (enum : Finset String → List String)
    (saved : Finset String) (notices : List (String × String)) (sendOk : String → Bool)
    (h : ∃ p ∈ new_notices notices saved, sendOk (formatMsg p.1 p.2) = false) :
    (runPoll enum saved notices sendOk).state = saved := by
  obtain ⟨p, hp, hfail⟩ := h
  have hne : new_notices notices saved ≠ [] := List.ne_nil_of_mem hp
  have hnn : notices ≠ [] := by
    intro h0; subst h0; simp [new_notices] at hp
  have hall : ¬(((new_notices notices saved).reverse).all
      (fun q => sendOk (formatMsg q.1 q.2)) = true) := by
    intro hall
    rw [List.all_eq_true] at hall
    have := hall p (List.mem_reverse.mpr hp)
    rw [hfail] at this
    exact Bool.false_ne_true this
  simp [runPoll, hnn, hne, hall]

theorem runPoll_state_success (enum : Finset String → List String)
    (saved : Finset String) (notices : List (String × String)) (sendOk : String → Bool)
    (henum : validEnum enum)
    (hok : ∀ p ∈ new_notices notices saved, sendOk (formatMsg p.1 p.2) = true)
    (hcard : ((notices.map Prod.fst).toFinset ∪ saved).card ≤ MAX_SAVED_NOTICES) :
    (runPoll enum saved notices sendOk).state =
      (notices.map Prod.fst).toFinset ∪ saved := by
  set U := (notices.map Prod.fst).toFinset ∪ saved with hU
  obtain ⟨hnodup, hmem⟩ := henum U
  have htf : (enum U).toFinset = U := Finset.ext fun x => by
    rw [List.mem_toFinset]; exact hmem x
  have hlen : (enum U).length = U.card := by
    rw [← List.toFinset_card_of_nodup hnodup, htf]
  have hsave : save_notices_lines (enum U) = enum U := by
    have h0 : (enum U).length - MAX_SAVED_NOTICES = 0 := by omega
    rw [save_notices_lines, h0, List.drop_zero]
  by_cases h : notices = []
  · have hUsaved : U = saved := by
      rw [hU]; subst h; simp
    rw [hUsaved] at htf hsave ⊢
    simp [runPoll, h]
  · by_cases h2 : new_notices notices saved = []
    · have hsub : ∀ t ∈ notices.map Prod.fst, t ∈ saved := by
        intro t ht
        obtain ⟨p, hp, rfl⟩ := List.mem_map.mp ht
        by_contra hns
        have hmem2 : p ∈ new_notices notices saved := by
          rw [new_notices, List.mem_filter]
          exact ⟨hp, by simpa using hns⟩
        rw [h2] at hmem2
        simp at hmem2
      have hUsaved : U = saved := by
        apply Finset.ext; intro x
        rw [hU, Finset.mem_union, List.mem_toFinset]
        exact ⟨fun hx => hx.elim (fun hx1 => hsub x hx1) id, Or.inr⟩
      rw [hUsaved] at htf hsave ⊢
      simp [runPoll, h, h2]
    · have hall : ((new_notices notices saved).reverse).all
          (fun q => sendOk (formatMsg q.1 q.2)) = true := by
        rw [List.all_eq_true]
        intro q hq
        exact hok q (List.mem_reverse.mp hq)
      rw [← htf]
      simp [runPoll, h, h2, hall, hsave, hU]

/-- C1 (amended): if any one of the new notices fails to send, the
persisted seen-set after the run equals the one before (the state file is
not rewritten); if every send succeeds, the committed state is `set of
current titles ∪ previously seen titles` provided that union has at most
MAX_SAVED_NOTICES elements (otherwise the cap of save_notices keeps only
a 200-element portion of the union — see the counterexample). -/
theorem poll_commit_atomicity (enum : Finset String → List String)
    (saved : Finset String) (notices : List (String × String))
    (sendOk : String → Bool) (henum : validEnum enum) :
    ((∃ p ∈ new_notices notices saved, sendOk (formatMsg p.1 p.2) = false) →
        (runPoll enum saved notices sendOk).state = saved)
    ∧ ((∀ p ∈ new_notices notices saved, sendOk (formatMsg p.1 p.2) = true) →
        ((notices.map Prod.fst).toFinset ∪ saved).card ≤ MAX_SAVED_NOTICES →
        (runPoll enum saved notices sendOk).state =
          (notices.map Prod.fst).toFinset ∪ saved) :=
  ⟨runPoll_state_fail enum saved notices sendOk,
   fun hok hcard => runPoll_state_success enum saved notices sendOk henum hok hcard⟩

/-- A computable valid enumeration of a Python set of strings (the model
has to pick some order; any order satisfying `validEnum` stands for the
unspecified iteration order). -/
def sortEnum : Finset String → List String := fun s => s.sort (· ≤ ·)

theorem validEnum_sortEnum : validEnum sortEnum := fun s =>
  ⟨Finset.sort_nodup _ s, fun _ => Finset.mem_sort _⟩

/-- Witness for C1 (amended) at concrete runs: a fully successful run
commits the union; a failing run leaves the state untouched. -/
theorem poll_commit_atomicity_witness :
    (runPoll sortEnum ∅ [("A", "L1")] (fun _ => true)).state =
      ([("A", "L1")].map Prod.fst).toFinset ∪ (∅ : Finset String)
    ∧ (runPoll sortEnum {"B"} [("A", "L1")] (fun _ => false)).state = {"B"} :=
  ⟨(poll_commit_atomicity sortEnum ∅ [("A", "L1")] (fun _ => true)
      validEnum_sortEnum).2 (fun _ _ => rfl) (by decide),
   (poll_commit_atomicity sortEnum {"B"} [("A", "L1")] (fun _ => false)
      validEnum_sortEnum).1 ⟨("A", "L1"), by decide, rfl⟩⟩

theorem save_toFinset_card_le (l : List String) :
    (save_notices_lines l).toFinset.card ≤ MAX_SAVED_NOTICES := by
  calc (save_notices_lines l).toFinset.card ≤ (save_notices_lines l).length :=
        l.drop _ |>.toFinset_card_le
  _ ≤ MAX_SAVED_NOTICES := by
        rw [save_notices_lines, List.length_drop]; omega

/-- A concrete page of 201 notices with pairwise distinct non-empty
titles. -/
def demoNotices : List (String × String) :=
  (List.range 201).map (fun i => (String.mk (List.replicate (i + 1) 'a'), "L"))

theorem demoTitles_nodup : (demoNotices.map Prod.fst).Nodup := by
  have h : demoNotices.map Prod.fst =
      (List.range 201).map (fun i => String.mk (List.replicate (i + 1) 'a')) := by
    simp [demoNotices]
  rw [h]
  refine List.Nodup.map ?_ (List.nodup_range 201)
  intro a b hab
  simpa using congrArg (fun s : String => s.data.length) hab

theorem demoTitles_card : (demoNotices.map Prod.fst).toFinset.card = 201 := by
  rw [List.toFinset_card_of_nodup demoTitles_nodup]
  simp [demoNotices]

/-- C1 counterexample: with 201 distinct titles on the page, an empty
prior seen-set and every send succeeding, the committed state is not the
union of current and previous titles — the cap of save_notices drops part
of it. -/
theorem poll_commit_union_counterexample :
    (runPoll sortEnum ∅ demoNotices (fun _ => true)).state ≠
      (demoNotices.map Prod.fst).toFinset ∪ ∅ := by
  intro h
  have hle : ((runPoll sortEnum ∅ demoNotices (fun _ => true)).state).card ≤
      MAX_SAVED_NOTICES := by
    rcases runPoll_state_cases sortEnum ∅ demoNotices (fun _ => true) with hc | hc
    · rw [hc]; simp [MAX_SAVED_NOTICES]
    · rw [hc]; exact save_toFinset_card_le _
  rw [h, Finset.union_empty, demoTitles_card] at hle
  exact absurd hle (by decide)

/-- C6: the poll workflow attempts delivery of exactly the new notices,
in the reverse of their extraction (page) order — oldest first. -/
theorem delivery_order_reversed (enum : Finset String → List String)
    (saved : Finset String) (notices : List (String × String))
    (sendOk : String → Bool) :
    (runPoll enum saved notices sendOk).sent = (new_notices notices saved).reverse :=
  runPoll_sent enum saved notices sendOk

/-- C3 refuted on the code (the claim expresses the intended behaviour;
the code slips): with 201 distinct titles on an unchanged page and every
send succeeding, the first run commits a capped 200-element portion of
the title set, so the second run re-notifies a dropped title — and this
happens under EVERY admissible iteration order of the Python set. -/
theorem poll_second_run_renotifies (enum : Finset String → List String)
    (henum : validEnum enum) :
    (runPoll enum (runPoll enum ∅ demoNotices (fun _ => true)).state demoNotices
      (fun _ => true)).sent ≠ [] := by
  set U := (demoNotices.map Prod.fst).toFinset ∪ (∅ : Finset String) with hU
  obtain ⟨hnodup, hmem⟩ := henum U
  have hnn : demoNotices ≠ [] := by simp [demoNotices]
  have hnew : new_notices demoNotices ∅ = demoNotices := by
    simp [new_notices]
  have hne2 : new_notices demoNotices ∅ ≠ [] := by rw [hnew]; exact hnn
  have h1 : (runPoll enum ∅ demoNotices (fun _ => true)).state =
      (save_notices_lines (enum U)).toFinset := by
    have hall : ((new_notices demoNotices ∅).reverse).all
        (fun q => (fun _ => true) (formatMsg q.1 q.2)) = true := by simp
    simp [runPoll, hnn, hne2, hall, hU]
  have htf : (enum U).toFinset = U := Finset.ext fun x => by
    rw [List.mem_toFinset]; exact hmem x
  have hlen : (enum U).length = 201 := by
    rw [← List.toFinset_card_of_nodup hnodup, htf, hU, Finset.union_empty,
      demoTitles_card]
  obtain ⟨h0, rest, hcons⟩ : ∃ h0 rest, enum U = h0 :: rest := by
    cases henumU : enum U with
    | nil => rw [henumU] at hlen; simp at hlen
    | cons a l => exact ⟨a, l, rfl⟩
  have hdrop : save_notices_lines (enum U) = rest := by
    rw [save_notices_lines, hlen, hcons]
    simp [MAX_SAVED_NOTICES]
  have hstate1 : (runPoll enum ∅ demoNotices (fun _ => true)).state =
      rest.toFinset := by rw [h1, hdrop]
  have hh0U : h0 ∈ U := (hmem h0).mp (hcons ▸ List.mem_cons_self h0 rest)
  have hh0rest : h0 ∉ rest.toFinset := by
    rw [List.mem_toFinset]
    intro hmem2
    rw [hcons] at hnodup
    exact (List.nodup_cons.mp hnodup).1 hmem2
  have hh0title : h0 ∈ demoNotices.map Prod.fst := by
    rw [hU, Finset.union_empty, List.mem_toFinset] at hh0U
    exact hh0U
  obtain ⟨p, hp, hfst⟩ := List.mem_map.mp hh0title
  have hpnew : p ∈ new_notices demoNotices rest.toFinset := by
    rw [new_notices, List.mem_filter]
    refine ⟨hp, ?_⟩
    rw [hfst]
    exact decide_eq_true hh0rest
  have hne : new_notices demoNotices rest.toFinset ≠ [] :=
    List.ne_nil_of_mem hpnew
  rw [hstate1, runPoll_sent]
  simpa using hne

/-- Witness for C3's refutation under the concrete sorted enumeration. -/
theorem poll_second_run_renotifies_witness :
    (runPoll sortEnum (runPoll sortEnum ∅ demoNotices (fun _ => true)).state
      demoNotices (fun _ => true)).sent ≠ [] :=
  poll_second_run_renotifies sortEnum validEnum_sortEnum

theorem retryLoop_all_fail {R : Type} (outcome : Nat → Except String R) :
    ∀ fuel a : Nat, 1 ≤ fuel →
      (∀ i, a ≤ i → i < a + fuel → ∃ e, outcome i = Except.error e) →
      retryLoop outcome a fuel =
        ⟨outcome (a + fuel - 1), fuel, List.replicate (fuel - 1) RETRY_DELAY⟩ := by
  intro fuel
  induction fuel with
  | zero => intro a h _; omega
  | succ f ih =>
    intro a _ hf
    cases f with
    | zero =>
      obtain ⟨e, he⟩ := hf a (le_refl a) (by omega)
      simp [retryLoop, he]
    | succ f' =>
      obtain ⟨e, he⟩ := hf a (le_refl a) (by omega)
      have ihr := ih (a + 1) (by omega) (fun i hi1 hi2 => hf i (by omega) (by omega))
      have harg : a + 1 + (f' + 1) - 1 = a + (f' + 1 + 1) - 1 := by omega
      simp only [retryLoop, he, ihr, harg]
      simp [List.replicate_succ]

theorem retryLoop_success {R : Type} (outcome : Nat → Except String R) (r : R) :
    ∀ fuel a k : Nat, a ≤ k → k < a + fuel → outcome k = Except.ok r →
      (∀ i, a ≤ i → i < k → ∃ e, outcome i = Except.error e) →
      retryLoop outcome a fuel =
        ⟨Except.ok r, k - a + 1, List.replicate (k - a) RETRY_DELAY⟩ := by
  intro fuel
  induction fuel with
  | zero => intro a k h1 h2 _ _; omega
  | succ f ih =>
    intro a k hak hlt hok hpre
    cases f with
    | zero =>
      have hka : k = a := by omega
      subst hka
      simp [retryLoop, hok]
    | succ f' =>
      by_cases hka : k = a
      · subst hka
        simp [retryLoop, hok]
      · obtain ⟨e, he⟩ := hpre a (le_refl a) (by omega)
        have ihr := ih (a + 1) k (by omega) (by omega) hok
          (fun i h1 h2 => hpre i (by omega) h2)
        have hrep : k - a = (k - (a + 1)) + 1 := by omega
        simp only [retryLoop, he, ihr, hrep, List.replicate_succ]

/-- C7: when every attempt fails transiently (connection error, timeout
or non-2xx status, i.e. a `requests.RequestException`),
`_request_with_retry` makes exactly `retries` attempts, sleeps
RETRY_DELAY seconds between consecutive attempts, and raises the failure
of the last attempt to the caller; when attempt k is the first success,
it returns that response after exactly k attempts and k-1 sleeps, with no
further attempt. -/
theorem retry_semantics {R : Type} (retries : Nat) (outcome : Nat → Except String R)
    (hr : 1 ≤ retries) :
    ((∀ i, 1 ≤ i → i ≤ retries → ∃ e, outcome i = Except.error e) →
        request_with_retry retries outcome =
          ⟨outcome retries, retries, List.replicate (retries - 1) RETRY_DELAY⟩)
    ∧ (∀ k r, 1 ≤ k → k ≤ retries → outcome k = Except.ok r →
        (∀ i, 1 ≤ i → i < k → ∃ e, outcome i = Except.error e) →
        request_with_retry retries outcome =
          ⟨Except.ok r, k, List.replicate (k - 1) RETRY_DELAY⟩) := by
  constructor
  · intro hf
    have harg : 1 + retries - 1 = retries := by omega
    rw [request_with_retry,
      retryLoop_all_fail outcome retries 1 hr (fun i h1 h2 => hf i h1 (by omega)),
      harg]
  · intro k r hk1 hkr hok hpre
    have harg : k - 1 + 1 = k := by omega
    rw [request_with_retry,
      retryLoop_success outcome r retries 1 k hk1 (by omega) hok hpre, harg]

/-- A concrete attempt oracle: the first attempt raises, the second
succeeds. -/
def demoOutcome : Nat → Except String Nat :=
  fun i => if i = 1 then Except.error "boom" else Except.ok 7

/-- Witness for C7 with the configured MAX_RETRIES: first attempt fails,
second succeeds, one RETRY_DELAY sleep, no third attempt. -/
theorem retry_semantics_witness :
    request_with_retry MAX_RETRIES demoOutcome = ⟨Except.ok 7, 2, [RETRY_DELAY]⟩ := by
  have h := (retry_semantics MAX_RETRIES demoOutcome (by decide)).2 2 7 (by decide)
    (by decide) rfl (fun i h1 h2 => by
      have hi : i = 1 := by omega
      subst hi
      exact ⟨"boom", rfl⟩)
  rw [h]
  rfl

theorem handle_notice_ne_nil (f : Except String (List Notice3)) :
    handle_notice_command f ≠ [] := by
  cases f with
  | error e => simp [handle_notice_command]
  | ok notices => by_cases h : notices = [] <;> simp [handle_notice_command, h]

theorem handle_latest_ne_nil (f : Except String (List Notice3)) :
    handle_latest_command f ≠ [] := by
  cases f with
  | error e => simp [handle_latest_command]
  | ok l => cases l <;> simp [handle_latest_command]

theorem handle_search_ne_nil (f : Except String (List Notice3)) (q : String) :
    handle_search_command f q ≠ [] := by
  by_cases hq : q = ""
  · simp [handle_search_command, hq]
  · cases f with
    | error e => simp [handle_search_command, hq]
    | ok notices =>
      by_cases hm : searchMatches q notices = [] <;>
        simp [handle_search_command, hq, hm]

/-- C8: every inbound message that the command workflow routes to a
handler gets at least one reply: extraction/network failures are caught
and answered with an escaped error message, an empty /search keyword
yields a usage message, and no routed command is silently dropped. -/
theorem commands_always_reply (cid : Int) (rawText : String)
    (f5 f1 f20 : Except String (List Notice3))
    (hcid : cid ≠ 0) (htext : pyStripS rawText ≠ "")
    (hroute : routedCmd (pyStripS rawText) = true) :
    process_update (some (some cid, rawText)) f5 f1 f20 ≠ [] := by
  simp only [process_update]
  rw [if_neg hcid, if_neg htext]
  by_cases h1 : pyStripS rawText = "/notice"
  · rw [if_pos h1]; exact handle_notice_ne_nil f5
  rw [if_neg h1]
  by_cases h2 : pyStripS rawText |>.startsWith "/notice@"
  · rw [if_pos h2]; exact handle_notice_ne_nil f5
  rw [if_neg h2]
  by_cases h3 : pyStripS rawText = "/latest"
  · rw [if_pos h3]; exact handle_latest_ne_nil f1
  rw [if_neg h3]
  by_cases h4 : pyStripS rawText |>.startsWith "/latest@"
  · rw [if_pos h4]; exact handle_latest_ne_nil f1
  rw [if_neg h4]
  by_cases h5 : pyStripS rawText = "/start"
  · rw [if_pos h5]; simp [handle_start_command]
  rw [if_neg h5]
  by_cases h6 : pyStripS rawText = "/help"
  · rw [if_pos h6]; simp [handle_start_command]
  rw [if_neg h6]
  by_cases h7 : pyStripS rawText |>.startsWith "/start@"
  · rw [if_pos h7]; simp [handle_start_command]
  rw [if_neg h7]
  by_cases h8 : pyStripS rawText |>.startsWith "/help@"
  · rw [if_pos h8]; simp [handle_start_command]
  rw [if_neg h8]
  by_cases h9 : pyStripS rawText = "/devInfo"
  · rw [if_pos h9]; simp [handle_dev_info_command]
  rw [if_neg h9]
  by_cases h10 : pyStripS rawText |>.startsWith "/devInfo@"
  · rw [if_pos h10]; simp [handle_dev_info_command]
  rw [if_neg h10]
  by_cases h11 : pyStripS rawText |>.startsWith "/search"
  · rw [if_pos h11]; exact handle_search_ne_nil f20 _
  exact absurd hroute (by
    simp [routedCmd, h1, h2, h3, h4, h5, h6, h7, h8, h9, h10, h11])

/-- Witness for C8: a concrete routed /notice update gets a reply. -/
theorem commands_always_reply_witness :
    process_update (some (some 42, "/notice")) (Except.ok [("T", "L", "")])
      (Except.ok []) (Except.ok []) ≠ [] :=
  commands_always_reply 42 "/notice" (Except.ok [("T", "L", "")])
    (Except.ok []) (Except.ok []) (by decide) (by decide) (by decide)

/-- C9: the search matches are exactly the fetched notices whose
lowercased title contains the lowercased keyword, in fetch order
(sublist); the reply lists the first `min 5 M` of them, appends an
overflow indicator carrying `M - 5` exactly when `M > 5`, and the single
reply sent is the joined lines. -/
theorem search_truncation (query : String) (notices : List Notice3)
    (hq : query ≠ "") :
    (searchMatches query notices).Sublist notices
    ∧ (∀ n, n ∈ searchMatches query notices ↔
        n ∈ notices ∧ titleMatches query n = true)
    ∧ ((searchMatches query notices).take 5).length =
        min 5 (searchMatches query notices).length
    ∧ (searchLines query notices).length =
        1 + min 5 (searchMatches query notices).length +
          (if 5 < (searchMatches query notices).length then 1 else 0)
    ∧ (5 < (searchMatches query notices).length →
        (searchLines query notices).getLast? =
          some (overflowLine ((searchMatches query notices).length - 5)))
    ∧ (searchMatches query notices ≠ [] →
        handle_search_command (Except.ok notices) query =
          [String.intercalate "\n" (searchLines query notices)]) := by
  refine ⟨List.filter_sublist _, fun n => ?_, List.length_take _ _,
    ?_, fun hover => ?_, fun hne => ?_⟩
  · simp [searchMatches, List.mem_filter]
  · by_cases h5 : 5 < (searchMatches query notices).length <;>
      simp [searchLines, h5, List.length_take, List.enum_length] <;> omega
  · simp only [searchLines, if_pos hover]
    exact List.getLast?_concat _
  · simp [handle_search_command, hq, hne]

/-- A concrete fetched page of 20 notices, 7 of whose titles contain the
keyword "exam" case-insensitively. -/
def examNotices : List Notice3 :=
  [("Final Exam Schedule", "l1", ""), ("Holiday Notice", "l2", ""),
   ("EXAM Hall List", "l3", ""), ("Seminar on AI", "l4", ""),
   ("Midterm exam routine", "l5", ""), ("Admission Fall", "l6", ""),
   ("Examination Fees", "l7", ""), ("Library Hours", "l8", ""),
   ("Re-exam application", "l9", ""), ("Sports Week", "l10", ""),
   ("Exam seat plan", "l11", ""), ("Club Fair", "l12", ""),
   ("Final exam results", "l13", ""), ("Workshop on IoT", "l14", ""),
   ("Payment deadline", "l15", ""), ("Orientation Day", "l16", ""),
   ("Convocation", "l17", ""), ("Scholarship list", "l18", ""),
   ("Registration open", "l19", ""), ("Course drop window", "l20", "")]

/-- Witness for C9 at the spec scenario: keyword "exam" against 20
notices with 7 matches yields a reply of header, 5 entries and a "+2
more" indicator. -/
theorem search_truncation_witness :
    (searchMatches "exam" examNotices).length = 7
    ∧ (searchLines "exam" examNotices).length = 7
    ∧ (searchLines "exam" examNotices).getLast? = some (overflowLine 2) := by
  have h := search_truncation "exam" examNotices (by decide)
  have h7 : (searchMatches "exam" examNotices).length = 7 := by decide
  have h5 : 5 < (searchMatches "exam" examNotices).length := by
    rw [h7]; decide
  refine ⟨h7, ?_, ?_⟩
  · rw [h.2.2.2.1, h7]; decide
  · rw [h.2.2.2.2.1 h5, h7]

theorem data_eq_nil_iff (s : String) : s.data = [] ↔ s = "" := by
  rw [String.ext_iff]

instance goodTitle_decidable (t : String) : Decidable (goodTitle t) := by
  unfold goodTitle
  infer_instance

theorem splitNl_append_line (t rest : List Char) (h : '\n' ∉ t) :
    splitNl (t ++ '\n' :: rest) = t :: splitNl rest := by
  induction t with
  | nil => simp [splitNl]
  | cons c cs ih =>
    have hc : ¬c = '\n' := fun hc => h (by rw [hc]; exact List.mem_cons_self _ _)
    have h2 : '\n' ∉ cs := fun hm => h (List.mem_cons_of_mem c hm)
    simp [splitNl, hc, ih h2, consHead]

theorem splitNl_flatten (lines : List String)
    (h : ∀ t ∈ lines, '\n' ∉ t.data) :
    splitNl ((lines.map (fun t => t.data ++ ['\n'])).flatten) =
      lines.map (fun t => t.data) ++ [[]] := by
  induction lines with
  | nil => simp [splitNl]
  | cons t ts ih =>
    have ht : '\n' ∉ t.data := h t (by simp)
    have hts : ∀ u ∈ ts, '\n' ∉ u.data := fun u hu => h u (by simp [hu])
    simp only [List.map_cons, List.flatten_cons]
    rw [show t.data ++ ['\n'] ++ (ts.map (fun u => u.data ++ ['\n'])).flatten =
        t.data ++ ('\n' :: (ts.map (fun u => u.data ++ ['\n'])).flatten) from by
      simp]
    rw [splitNl_append_line _ _ ht, ih hts]
    simp

theorem univNl_no_cr (l : List Char) (h : '\r' ∉ l) : univNl l = l := by
  induction l with
  | nil => rfl
  | cons c rest ih =>
    have hc : ¬c = '\r' := fun hc => h (by rw [hc]; exact List.mem_cons_self _ _)
    have hrest : '\r' ∉ rest := fun hm => h (List.mem_cons_of_mem c hm)
    cases rest with
    | nil => simp [univNl, hc]
    | cons d rest2 => simp [univNl, hc, ih hrest]

/-- C10: for titles that are non-empty, free of line breaks (LF and CR
alike, since text-mode reads treat both as newlines) and stripped
(`goodTitle`), loading the file written by save_notices returns exactly
the capped saved titles as a set; the preconditions are necessary — a
title with an embedded LF or CR splits into several entries on reload,
and edge whitespace (Unicode included, e.g. a trailing NBSP) is stripped
on reload. -/
theorem state_round_trip :
    (∀ titles : List String, (∀ t ∈ titles, goodTitle t) →
        load_saved_notices (saveContent titles) =
          (save_notices_lines titles).toFinset)
    ∧ load_saved_notices (saveContent ["a\nb"]) ≠ ({"a\nb"} : Finset String)
    ∧ load_saved_notices (saveContent ["a\rb"]) = ({"a", "b"} : Finset String)
    ∧ load_saved_notices (saveContent [" a"]) = ({"a"} : Finset String)
    ∧ load_saved_notices (saveContent ["a\u00A0"]) = ({"a"} : Finset String) := by
  refine ⟨fun titles h => ?_, by decide, by decide, by decide, by decide⟩
  have hcap : ∀ t ∈ save_notices_lines titles, goodTitle t :=
    fun t ht => h t (List.drop_subset _ _ ht)
  have hnocr : '\r' ∉
      ((save_notices_lines titles).map (fun t => t.data ++ ['\n'])).flatten := by
    intro hmem
    rw [List.mem_flatten] at hmem
    obtain ⟨piece, hpiece, hcr⟩ := hmem
    obtain ⟨t, ht, rfl⟩ := List.mem_map.mp hpiece
    rcases List.mem_append.mp hcr with h1 | h2
    · exact (hcap t ht).2.2.1 h1
    · simp at h2
  rw [load_saved_notices, saveContent, univNl_no_cr _ hnocr,
    splitNl_flatten _ (fun t ht => (hcap t ht).2.1), List.map_append]
  have hstrip : ((save_notices_lines titles).map (fun t => t.data)).map stripChars
      = (save_notices_lines titles).map (fun t => t.data) := by
    rw [List.map_map]
    exact List.map_congr_left (fun t ht => (hcap t ht).2.2.2)
  have hstrip0 : ([([] : List Char)]).map stripChars = [[]] := by
    simp [stripChars]
  rw [hstrip, hstrip0, List.filter_append]
  have hfil : ((save_notices_lines titles).map (fun t => t.data)).filter
      (fun l => !l.isEmpty) = (save_notices_lines titles).map (fun t => t.data) := by
    apply List.filter_eq_self.mpr
    intro x hx
    obtain ⟨t, ht, rfl⟩ := List.mem_map.mp hx
    simp only [Bool.not_eq_true', ← Bool.not_eq_true, List.isEmpty_iff]
    intro hnil
    exact (hcap t ht).1 ((data_eq_nil_iff t).mp hnil)
  have hfil0 : ([([] : List Char)]).filter (fun l => !l.isEmpty) = [] := by
    simp
  rw [hfil, hfil0, List.append_nil, List.map_map]
  have hmk : ∀ l : List String, l.map (String.mk ∘ fun u => u.data) = l := by
    intro l
    induction l with
    | nil => rfl
    | cons a as ih =>
      rw [List.map_cons, ih]
      rfl
  rw [hmk]

/-- Witness for C10 at a concrete saved state. -/
theorem state_round_trip_witness :
    load_saved_notices (saveContent ["Exam Notice", "Holiday"]) =
      (save_notices_lines ["Exam Notice", "Holiday"]).toFinset :=
  state_round_trip.1 ["Exam Notice", "Holiday"] (by decide)

end AiubBot
